import Mathlib

/-!
Shallow embedding of `src/imbalanced/datasets/generic.py`.

The module defines three classes over an abstract indexable dataset:
`DatasetWrapper` (lockable wrapper), `PartitionedDataset` (contiguous named
partitions of the index range) and `ResampledDataset` (an explicit list of
source indices).

Modelling conventions:
  * The wrapped dataset (the Base Sequence) is a `List α`; its `item_at` is
    defined exactly on `[0, length)` and reports `indexOutOfRange` elsewhere.
  * Python `assert` failures are `Err.invariantViolation`; a raised
    `IndexError` is `Err.indexOutOfRange`; numpy's reduction error on an
    empty array (`ValueError`) is `Err.valueError`.
  * Python / numpy numbers are exact rationals (`ℚ`) and integers (`ℤ`);
    `round` is Python 3 round-half-to-even, `int()` truncates toward zero.
  * numpy 1-d integer-array indexing (`a[i]`) wraps negative indices from the
    end and raises `IndexError` outside `[-len, len)`: `npGet`.
  * Python dicts are association lists in insertion order.
  * Fallible operations return `Except Err`.
-/

deriving instance DecidableEq for Except

namespace Imbalanced

/-- Error taxonomy of the embedded code. -/
inductive Err where
  | invariantViolation
  | indexOutOfRange
  | keyNotFound
  | valueError
deriving DecidableEq, Repr

/-- The Base Sequence collaborator: `item_at` is defined on `[0, length)`;
any other index is an index error. -/
def itemAtBase {α : Type} (d : List α) (i : ℤ) : Except Err α :=
  if 0 ≤ i then
    match d.get? i.toNat with
    | some x => .ok x
    | none => .error .indexOutOfRange
  else .error .indexOutOfRange

/-- numpy 1-d array indexing `a[i]`: negative indices wrap from the end,
indices outside `[-len, len)` raise `IndexError`. -/
def npGet (l : List ℤ) (i : ℤ) : Except Err ℤ :=
  if 0 ≤ i ∧ i < (l.length : ℤ) then .ok (l.getD i.toNat 0)
  else if -(l.length : ℤ) ≤ i ∧ i < 0 then .ok (l.getD ((l.length : ℤ) + i).toNat 0)
  else .error .indexOutOfRange

/-- `np.cumsum` with a running accumulator. -/
def cumsumFrom (acc : ℤ) : List ℤ → List ℤ
  | [] => []
  | x :: xs => (acc + x) :: cumsumFrom (acc + x) xs

/-- `np.cumsum`: element `k` is the sum of the first `k+1` inputs. -/
def cumsum (l : List ℤ) : List ℤ := cumsumFrom 0 l

/-- Python 3 `round` on a rational: round half to even. -/
def pyRound (q : ℚ) : ℤ :=
  let f := ⌊q⌋
  let r := q - f
  if r < 1 / 2 then f
  else if 1 / 2 < r then f + 1
  else if Even f then f else f + 1

/-- Python `int()` on a rational: truncation toward zero. -/
def pyInt (q : ℚ) : ℤ :=
  if 0 ≤ q.num then q.num / (q.den : ℤ) else -((-q.num) / (q.den : ℤ))

/-- `DatasetWrapper`: the wrapped dataset plus the lock flag. -/
structure DatasetWrapper (α : Type) where
  dataset : List α
  lock_dataset : Bool
deriving DecidableEq, Repr

/-- `DatasetWrapper.__init__`: stores the dataset; the lock flag defaults to
`true` when the supplied value is not a proper boolean (modelled by `none`). -/
def DatasetWrapper.construct {α : Type} (dataset : List α) (lockFlag : Option Bool) :
    DatasetWrapper α :=
  { dataset := dataset, lock_dataset := lockFlag.getD true }

/-- The `dataset` property setter on an already-constructed wrapper (where
`_dataset` is never `None`): asserts the wrapper is not locked, then replaces
the wrapped dataset. -/
def DatasetWrapper.set_dataset {α : Type} (w : DatasetWrapper α) (d : List α) :
    Except Err (DatasetWrapper α) :=
  if w.lock_dataset then .error .invariantViolation
  else .ok { w with dataset := d }

/-- `PartitionedDataset`: wrapper state plus the cached partition metadata. -/
structure PartitionedDataset (α : Type) where
  wrapper : DatasetWrapper α
  partition_names : List String
  partition_sizes : List ℤ
  partition_offsets : List ℤ
  active_partition_idx : ℕ
deriving DecidableEq, Repr

/-- `set_active_partition`: asserts the name exists, then stores the index of
its first occurrence in `partition_names`. -/
def PartitionedDataset.set_active_partition {α : Type} (pd : PartitionedDataset α)
    (partition : String) : Except Err (PartitionedDataset α) :=
  if partition ∈ pd.partition_names then
    .ok { pd with active_partition_idx := pd.partition_names.indexOf partition }
  else .error .keyNotFound

/-- The `active_partition` property: `partition_names[active_partition_idx]`. -/
def PartitionedDataset.active_partition {α : Type} (pd : PartitionedDataset α) : String :=
  pd.partition_names.getD pd.active_partition_idx ""

/-- The `partitions` property: the name-to-size mapping in declaration order. -/
def PartitionedDataset.partitions {α : Type} (pd : PartitionedDataset α) :
    List (String × ℤ) :=
  pd.partition_names.zip pd.partition_sizes

/-- The fractional-to-integer conversion step of `PartitionedDataset.__init__`:
when the supplied values sum to `≤ 1`, each value is replaced by
`round(fraction * len(dataset))`; otherwise the spec is kept as given. -/
def convertPartitions (datasetLen : ℕ) (partitions : List (String × ℚ)) :
    List (String × ℚ) :=
  if (partitions.map (fun p => p.2)).sum ≤ 1 then
    partitions.map (fun p => (p.1, ((pyRound (p.2 * datasetLen) : ℤ) : ℚ)))
  else partitions

/-- `PartitionedDataset.__init__`: wraps the dataset (lock defaulting to
`true`), fills in the default spec when none is given, validates (at least two
partitions, all values positive, integer sizes after conversion, sizes summing
to the dataset length), caches names, sizes and cumulative offsets, and sets
the active partition to `train` when present, else to the first name.
A value `v` passes Python's `v == int(v)` test exactly when its denominator is
one. -/
def PartitionedDataset.construct {α : Type} (dataset : List α)
    (partitionsOpt : Option (List (String × ℚ))) : Except Err (PartitionedDataset α) :=
  let partitions := partitionsOpt.getD
    [("train", 64 / 100), ("val", 16 / 100), ("test", 20 / 100)]
  if partitions.length < 2 then .error .invariantViolation
  else if ¬ (∀ p ∈ partitions, 0 < p.2) then .error .invariantViolation
  else
    let conv := convertPartitions dataset.length partitions
    if ¬ (∀ p ∈ conv, p.2.den = 1) then .error .invariantViolation
    else if ¬ ((conv.map (fun p => p.2)).sum = (dataset.length : ℚ)) then
      .error .invariantViolation
    else
      let names := conv.map (fun p => p.1)
      let sizes := conv.map (fun p => pyInt p.2)
      let base : PartitionedDataset α :=
        { wrapper := { dataset := dataset, lock_dataset := true }
          partition_names := names
          partition_sizes := sizes
          partition_offsets := cumsum sizes
          active_partition_idx := 0 }
      if "train" ∈ names then base.set_active_partition "train"
      else base.set_active_partition names.headI

/-- `PartitionedDataset.__len__`: the size of the active partition. -/
def PartitionedDataset.length {α : Type} (pd : PartitionedDataset α) : ℤ :=
  pd.partition_sizes.getD pd.active_partition_idx 0

/-- `PartitionedDataset.__getitem__`: raises `IndexError` when
`idx >= partition_sizes[active_partition_idx]`; otherwise reads
`offset = partition_offsets[active_partition_idx - 1]` (numpy indexing, so the
index `-1` arising for the first partition wraps to the LAST offset) and
delegates `dataset[offset + idx]`. -/
def PartitionedDataset.item_at {α : Type} (pd : PartitionedDataset α) (idx : ℤ) :
    Except Err α :=
  if pd.partition_sizes.getD pd.active_partition_idx 0 ≤ idx then
    .error .indexOutOfRange
  else
    match npGet pd.partition_offsets ((pd.active_partition_idx : ℤ) - 1) with
    | .error e => .error e
    | .ok offset => itemAtBase pd.wrapper.dataset (offset + idx)

/-- `ResampledDataset`: wrapper state plus the active sample list. -/
structure ResampledDataset (α : Type) where
  wrapper : DatasetWrapper α
  samples : List ℤ
deriving DecidableEq, Repr

/-- The `samples` property setter: flattens the (possibly nested) input, then
asserts `samples.min() >= 0` and `samples.max() < len(dataset)`.  numpy's
`min`/`max` of an empty array raise `ValueError` before either assert runs. -/
def ResampledDataset.set_samples {α : Type} (dataset : List α) (raw : List (List ℤ)) :
    Except Err (List ℤ) :=
  let samples := raw.flatten
  if samples.isEmpty then .error .valueError
  else if ¬ (∀ s ∈ samples, 0 ≤ s) then .error .invariantViolation
  else if ¬ (∀ s ∈ samples, s < (dataset.length : ℤ)) then .error .invariantViolation
  else .ok samples

/-- `ResampledDataset.__init__`: wraps the dataset (lock defaulting to `true`)
and assigns the `samples` property, defaulting to
`np.arange(len(dataset))`. -/
def ResampledDataset.construct {α : Type} (dataset : List α)
    (samplesOpt : Option (List (List ℤ))) : Except Err (ResampledDataset α) :=
  let raw := samplesOpt.getD [(List.range dataset.length).map (fun (n : ℕ) => (n : ℤ))]
  (ResampledDataset.set_samples dataset raw).map
    (fun s => { wrapper := { dataset := dataset, lock_dataset := true }, samples := s })

/-- Wholesale replacement of `samples` on an existing view (the `samples`
property setter applied after construction). -/
def ResampledDataset.replace_samples {α : Type} (rd : ResampledDataset α)
    (raw : List (List ℤ)) : Except Err (ResampledDataset α) :=
  (ResampledDataset.set_samples rd.wrapper.dataset raw).map
    (fun s => { rd with samples := s })

/-- `ResampledDataset.__len__`: the number of stored samples. -/
def ResampledDataset.length {α : Type} (rd : ResampledDataset α) : ℤ :=
  (rd.samples.length : ℤ)

/-- `ResampledDataset.__getitem__`: `dataset[samples[idx]]`, where `samples`
is a numpy array (negative `idx` wraps; `idx` outside `[-len, len)` raises
`IndexError`). -/
def ResampledDataset.item_at {α : Type} (rd : ResampledDataset α) (idx : ℤ) :
    Except Err α :=
  match npGet rd.samples idx with
  | .error e => .error e
  | .ok s => itemAtBase rd.wrapper.dataset s

/-! ### Helper lemmas -/

theorem getD_indexOf_mem {a : String} {l : List String} (h : a ∈ l) (d : String) :
    l.getD (l.indexOf a) d = a := by
  induction l with
  | nil => cases h
  | cons x xs ih =>
    by_cases hx : x = a
    · subst hx
      simp [List.indexOf_cons_self]
    · rw [List.indexOf_cons_ne _ hx]
      have hmem : a ∈ xs := by
        rcases List.mem_cons.mp h with h1 | h1
        · exact absurd h1.symm hx
        · exact h1
      simpa using ih hmem

theorem getD_indexOf_headI {l : List String} (h : l ≠ []) (d : String) :
    l.getD (l.indexOf l.headI) d = l.headI := by
  cases l with
  | nil => exact absurd rfl h
  | cons x xs => simp [List.headI, List.indexOf_cons_self]

theorem set_samples_ok {α : Type} {dataset : List α} {raw : List (List ℤ)} {s : List ℤ}
    (h : ResampledDataset.set_samples dataset raw = .ok s) :
    s = raw.flatten ∧ ∀ x ∈ s, 0 ≤ x ∧ x < (dataset.length : ℤ) := by
  simp only [ResampledDataset.set_samples] at h
  split_ifs at h with h1 h2 h3
  injection h with h
  subst h
  exact ⟨rfl, fun x hx => ⟨h2 x hx, h3 x hx⟩⟩

theorem resampled_construct_ok {α : Type} {dataset : List α} {rawOpt : Option (List (List ℤ))}
    {rd : ResampledDataset α}
    (h : ResampledDataset.construct dataset rawOpt = .ok rd) :
    rd.wrapper = { dataset := dataset, lock_dataset := true } ∧
    rd.samples = (rawOpt.getD [(List.range dataset.length).map (fun (n : ℕ) => (n : ℤ))]).flatten ∧
    ∀ x ∈ rd.samples, 0 ≤ x ∧ x < (dataset.length : ℤ) := by
  simp only [ResampledDataset.construct] at h
  cases hs : ResampledDataset.set_samples dataset
      (rawOpt.getD [(List.range dataset.length).map (fun (n : ℕ) => (n : ℤ))]) with
  | error e => rw [hs] at h; cases h
  | ok s =>
    rw [hs] at h
    injection h with h
    subst h
    obtain ⟨hflat, hrange⟩ := set_samples_ok hs
    exact ⟨rfl, hflat, hrange⟩

theorem set_active_partition_ok {α : Type} {pd pd2 : PartitionedDataset α} {name : String}
    (h : pd.set_active_partition name = .ok pd2) :
    name ∈ pd.partition_names ∧
    pd2 = { pd with active_partition_idx := pd.partition_names.indexOf name } := by
  unfold PartitionedDataset.set_active_partition at h
  split at h
  · exact ⟨by assumption, (Except.ok.inj h).symm⟩
  · cases h

theorem partitioned_construct_ok {α : Type} {dataset : List α}
    {pOpt : Option (List (String × ℚ))} {pd : PartitionedDataset α}
    (h : PartitionedDataset.construct dataset pOpt = .ok pd) :
    pd.wrapper = { dataset := dataset, lock_dataset := true } ∧
    pd.active_partition =
      (if "train" ∈ pd.partition_names then "train" else pd.partition_names.headI) := by
  simp only [PartitionedDataset.construct] at h
  split_ifs at h with h1 h2 h3 h4 h5
  · obtain ⟨h6, hpd⟩ := set_active_partition_ok h
    subst hpd
    refine ⟨rfl, ?_⟩
    simp only [PartitionedDataset.active_partition]
    rw [if_pos h5]
    exact getD_indexOf_mem h5 ""
  · obtain ⟨h6, hpd⟩ := set_active_partition_ok h
    subst hpd
    refine ⟨rfl, ?_⟩
    simp only [PartitionedDataset.active_partition]
    rw [if_neg h5]
    exact getD_indexOf_headI (List.ne_nil_of_mem h6) ""

theorem set_samples_err {α : Type} {dataset : List α} {raw : List (List ℤ)}
    (hx : ∃ x ∈ raw.flatten, x < 0 ∨ (dataset.length : ℤ) ≤ x) :
    ResampledDataset.set_samples dataset raw = .error .invariantViolation := by
  obtain ⟨x, hmem, hor⟩ := hx
  have hne : ¬(raw.flatten.isEmpty = true) := by
    simp only [List.isEmpty_iff]
    exact List.ne_nil_of_mem hmem
  unfold ResampledDataset.set_samples
  rw [if_neg hne]
  by_cases hall : ∀ s ∈ raw.flatten, 0 ≤ s
  · rw [if_neg (not_not_intro hall)]
    have hlt : ¬∀ s ∈ raw.flatten, s < (dataset.length : ℤ) := by
      intro hforall
      rcases hor with hneg | hge
      · exact absurd (hall x hmem) (not_le.mpr hneg)
      · exact absurd (hforall x hmem) (not_lt.mpr hge)
    rw [if_pos hlt]
  · rw [if_pos hall]

/-! ### Claim theorems -/

/-- Claim C1: the program violates partition translation correctness for the
first partition.  For inner `[0, 1, 2, 3]` with partitions
`{train: 2, val: 2}` and active partition `"train"` (index 0),
`item_at(0)` should return `inner.item_at(0 + 0) = 0`, but the code reads
`partition_offsets[active_index - 1] = partition_offsets[-1] = 4` (the last
cumulative offset) and delegates `inner.item_at(4)`, which is out of range. -/
theorem C1_first_partition_translation_bug :
    ∃ pd : PartitionedDataset ℕ,
      PartitionedDataset.construct [0, 1, 2, 3] (some [("train", 2), ("val", 2)]) = .ok pd ∧
      pd.active_partition = "train" ∧
      pd.partition_offsets = [2, 4] ∧
      pd.item_at 0 = .error .indexOutOfRange ∧
      itemAtBase [0, 1, 2, 3] (0 : ℤ) = .ok 0 ∧
      pd.item_at 0 ≠ itemAtBase [0, 1, 2, 3] (0 : ℤ) := by
  refine ⟨⟨⟨[0, 1, 2, 3], true⟩, ["train", "val"], [2, 2], [2, 4], 0⟩,
    ?_, ?_, ?_, ?_, ?_, ?_⟩
  · norm_num [PartitionedDataset.construct, convertPartitions, pyRound, pyInt,
      PartitionedDataset.set_active_partition, cumsum, cumsumFrom]
  · decide
  · decide
  · decide
  · decide
  · decide

/-- Claim C5: with the lock enabled, replacing the wrapped dataset fails with
an invariant violation and the wrapper still holds the original dataset; with
the lock disabled the replacement succeeds and the getter returns the new
dataset; a lock flag that is not a proper boolean (modelled by `none`)
defaults to locked. -/
theorem C5_lock_enforcement {α : Type} (A B : List α) :
    (DatasetWrapper.construct A (some true)).set_dataset B = .error .invariantViolation ∧
    (DatasetWrapper.construct A (some true)).dataset = A ∧
    ((DatasetWrapper.construct A (some false)).set_dataset B).map
      (fun w => w.dataset) = .ok B ∧
    (DatasetWrapper.construct A none).lock_dataset = true := by
  refine ⟨rfl, rfl, rfl, rfl⟩

/-- Claim C6: with inner length 100 and partitions `{train: 0.7, val: 0.3}`
the integer sizes are `{train: 70, val: 30}`; after activating `"val"`,
`length() = 30` and `item_at(0)` equals `inner.item_at(70)` (whose row here
is `70`). -/
theorem C6_fractional_partition_example :
    (PartitionedDataset.construct (List.range 100)
        (some [("train", 7 / 10), ("val", 3 / 10)])).map
      (fun pd => pd.partitions) = .ok [("train", 70), ("val", 30)] ∧
    ((PartitionedDataset.construct (List.range 100)
        (some [("train", 7 / 10), ("val", 3 / 10)])).bind
      (fun pd => pd.set_active_partition "val")).map
      (fun pd => (pd.length, pd.item_at 0)) = .ok (30, .ok 70) ∧
    itemAtBase (List.range 100) (70 : ℤ) = .ok 70 := by
  refine ⟨?_, ?_, ?_⟩
  · norm_num [PartitionedDataset.construct, convertPartitions, pyRound, pyInt,
      PartitionedDataset.set_active_partition, PartitionedDataset.partitions, cumsum, cumsumFrom]
    rfl
  · norm_num [PartitionedDataset.construct, convertPartitions, pyRound, pyInt,
      PartitionedDataset.set_active_partition, PartitionedDataset.length,
      PartitionedDataset.item_at, npGet, itemAtBase, cumsum, cumsumFrom]
    rfl
  · decide

/-- Claim C2 counterexample: a Resample View does NOT fail on a negative
local index; with inner `[10, 20, 30]` and the identity sample list,
`item_at(-1)` succeeds and returns row `30` (numpy wraps negative indices). -/
theorem C2_counterexample_negative_index :
    ∃ rd : ResampledDataset ℕ,
      ResampledDataset.construct [10, 20, 30] none = .ok rd ∧
      rd.item_at (-1) = .ok 30 := by
  refine ⟨⟨⟨[10, 20, 30], true⟩, [0, 1, 2]⟩, ?_, ?_⟩ <;> decide

/-- Claim C3 counterexample: constructing a Resample View with an explicitly
supplied empty samples list does NOT succeed; numpy's `min` of an empty array
raises `ValueError`, so construction fails. -/
theorem C3_counterexample_empty_samples :
    ResampledDataset.construct ([10, 20, 30] : List ℕ) (some [[]]) =
      .error .valueError := by
  decide

/-- Claim C4 counterexample: with an inner sequence of length 0, constructing
a Resample View with no explicit samples does NOT yield a view of length 0:
the default `arange(0)` is empty and the validation's empty-array reduction
fails, so construction errors instead. -/
theorem C4_counterexample_empty_inner :
    ResampledDataset.construct ([] : List ℕ) none = .error .valueError := by
  decide

/-- Claim C2 (amended): `item_at` fails with `IndexOutOfRange` for every
local index `>=` the view's length, for both view types (for the Resample
View this comes from indexing the sample array, which raises only outside
`[-len, len)`); a negative local index on the Resample View does NOT fail but
wraps, reading `samples[len + idx]` per the numpy indexing convention. -/
theorem C2_bounds_amended {α : Type} :
    (∀ (pd : PartitionedDataset α) (idx : ℤ), pd.length ≤ idx →
      pd.item_at idx = .error .indexOutOfRange) ∧
    (∀ (rd : ResampledDataset α) (idx : ℤ), rd.length ≤ idx →
      rd.item_at idx = .error .indexOutOfRange) ∧
    (∀ (rd : ResampledDataset α) (idx : ℤ), -rd.length ≤ idx → idx < 0 →
      rd.item_at idx =
        itemAtBase rd.wrapper.dataset (rd.samples.getD (rd.length + idx).toNat 0)) := by
  refine ⟨fun pd idx h => ?_, fun rd idx h => ?_, fun rd idx h1 h2 => ?_⟩
  · simp only [PartitionedDataset.length] at h
    unfold PartitionedDataset.item_at
    rw [if_pos h]
  · simp only [ResampledDataset.length] at h
    have hlen : (0 : ℤ) ≤ (rd.samples.length : ℤ) := Int.ofNat_nonneg _
    have hc1 : ¬(0 ≤ idx ∧ idx < (rd.samples.length : ℤ)) := by omega
    have hc2 : ¬(-(rd.samples.length : ℤ) ≤ idx ∧ idx < 0) := by omega
    simp [ResampledDataset.item_at, npGet, hc1, hc2]
  · simp only [ResampledDataset.length] at h1
    have hc1 : ¬(0 ≤ idx ∧ idx < (rd.samples.length : ℤ)) := by omega
    have hc2 : -(rd.samples.length : ℤ) ≤ idx ∧ idx < 0 := by omega
    simp [ResampledDataset.item_at, npGet, hc1, hc2, ResampledDataset.length]

/-- Witness for C2: instantiates the amended bounds theorem on concrete
views: a two-partition view on `[0,1,2,3]` rejects local index 2 (its active
length), a resample of `[10,20,30]` rejects local index 3, and local index
`-1` wraps to `samples[2]`, giving row 30. -/
theorem C2_bounds_witness :
    (PartitionedDataset.item_at
        ⟨⟨[0, 1, 2, 3], true⟩, ["train", "val"], [2, 2], [2, 4], 0⟩ 2 =
      .error .indexOutOfRange) ∧
    (ResampledDataset.item_at ⟨⟨[10, 20, 30], true⟩, [0, 1, 2]⟩ 3 =
      .error .indexOutOfRange) ∧
    (ResampledDataset.item_at ⟨⟨[10, 20, 30], true⟩, [0, 1, 2]⟩ (-1) =
      itemAtBase ([10, 20, 30] : List ℕ) (([0, 1, 2] : List ℤ).getD (3 + (-1)).toNat 0)) := by
  refine ⟨C2_bounds_amended.1 _ 2 (by decide),
    C2_bounds_amended.2.1 _ 3 (by decide),
    C2_bounds_amended.2.2 _ (-1) (by decide) (by decide)⟩

/-- Claim C3 (amended): constructing a Resample View from an explicitly
supplied EMPTY samples list fails (numpy's empty-array reduction error), so an
empty resample is not permitted; beyond non-emptiness there is no
minimum-size rule (any non-empty in-range sample list is accepted, unlike the
Partition View's two-partition minimum), and on success `length()` equals
`len(samples)`. -/
theorem C3_empty_resample_amended {α : Type} (dataset : List α) :
    (∀ raw : List (List ℤ), raw.flatten = [] →
      ResampledDataset.construct dataset (some raw) = .error .valueError) ∧
    (∀ samples : List ℤ, samples ≠ [] →
      (∀ s ∈ samples, 0 ≤ s ∧ s < (dataset.length : ℤ)) →
      ResampledDataset.construct dataset (some [samples]) =
        .ok { wrapper := { dataset := dataset, lock_dataset := true }, samples := samples } ∧
      ResampledDataset.length
        { wrapper := { dataset := dataset, lock_dataset := true }, samples := samples } =
        (samples.length : ℤ)) := by
  constructor
  · intro raw hflat
    simp [ResampledDataset.construct, ResampledDataset.set_samples, hflat, Except.map]
  · intro samples hne hrange
    have hflat : ([samples] : List (List ℤ)).flatten = samples := by simp
    refine ⟨?_, rfl⟩
    simp only [ResampledDataset.construct, ResampledDataset.set_samples, Option.getD_some, hflat]
    rw [if_neg (by simpa using hne),
      if_neg (not_not_intro (fun s hs => (hrange s hs).1)),
      if_neg (not_not_intro (fun s hs => (hrange s hs).2))]
    rfl

/-- Witness for C3: over inner `[10, 20, 30]`, the nested-empty sample input
fails with the empty-array error, while the one-element sample list `[2]` is
accepted and yields a view of length 1. -/
theorem C3_empty_resample_witness :
    (ResampledDataset.construct ([10, 20, 30] : List ℕ) (some [[], []]) =
      .error .valueError) ∧
    (ResampledDataset.construct ([10, 20, 30] : List ℕ) (some [[2]]) =
      .ok { wrapper := { dataset := [10, 20, 30], lock_dataset := true }, samples := [2] }) := by
  refine ⟨(C3_empty_resample_amended [10, 20, 30]).1 [[], []] (by decide), ?_⟩
  exact ((C3_empty_resample_amended [10, 20, 30]).2 [2] (by decide) (by decide)).1

/-- Claim C4 (amended): for every Resample View and every local index
`0 <= i < len(samples)`, `item_at(i)` equals `inner.item_at(samples[i])`;
when constructed with no explicit samples over a NON-EMPTY inner sequence,
the default sample list is `[0, .., n-1]`, `length() = n` and
`item_at(i) = inner.item_at(i)` for all valid `i`; over an inner of length 0
the default construction fails instead (see the counterexample). -/
theorem C4_resample_translation_amended {α : Type} :
    (∀ (rd : ResampledDataset α) (i : ℤ), 0 ≤ i → i < rd.length →
      rd.item_at i = itemAtBase rd.wrapper.dataset (rd.samples.getD i.toNat 0)) ∧
    (∀ dataset : List α, dataset ≠ [] →
      ∃ rd : ResampledDataset α,
        ResampledDataset.construct dataset none = .ok rd ∧
        rd.samples = (List.range dataset.length).map (fun (n : ℕ) => (n : ℤ)) ∧
        rd.length = (dataset.length : ℤ) ∧
        ∀ i : ℤ, 0 ≤ i → i < (dataset.length : ℤ) →
          rd.item_at i = itemAtBase dataset i) := by
  constructor
  · intro rd i h0 hlt
    simp only [ResampledDataset.length] at hlt
    unfold ResampledDataset.item_at npGet
    rw [if_pos ⟨h0, hlt⟩]
  · intro dataset hne
    have hlen : 0 < dataset.length := List.length_pos.mpr hne
    refine ⟨⟨⟨dataset, true⟩, (List.range dataset.length).map (fun (n : ℕ) => (n : ℤ))⟩,
      ?_, rfl, ?_, ?_⟩
    · simp only [ResampledDataset.construct, ResampledDataset.set_samples, Option.getD_none,
        List.flatten_cons, List.flatten_nil, List.append_nil]
      rw [if_neg (by
          simp only [List.isEmpty_iff, List.map_eq_nil_iff, List.range_eq_nil]
          omega),
        if_neg (not_not_intro (fun s hs => by
          obtain ⟨k, hk, rfl⟩ := List.mem_map.mp hs
          exact Int.ofNat_nonneg k)),
        if_neg (not_not_intro (fun s hs => by
          obtain ⟨k, hk, rfl⟩ := List.mem_map.mp hs
          exact_mod_cast List.mem_range.mp hk))]
      rfl
    · simp [ResampledDataset.length]
    · intro i h0 hlt
      have hi : i.toNat < dataset.length := by omega
      have hc : 0 ≤ i ∧
          i < ((((List.range dataset.length).map (fun (n : ℕ) => (n : ℤ))).length : ℕ) : ℤ) :=
        ⟨h0, by simpa using hlt⟩
      unfold ResampledDataset.item_at npGet
      rw [if_pos hc]
      have hval : ((List.range dataset.length).map (fun (n : ℕ) => (n : ℤ))).getD i.toNat 0 = i := by
        rw [List.getD_eq_getElem?_getD, List.getElem?_map, List.getElem?_range hi]
        simp [Int.toNat_of_nonneg h0]
      rw [hval]

/-- Witness for C4: instantiates the amended translation theorem on the
resample `[2, 0]` of inner `[10, 20, 30]` (local index 1 reads source row 0)
and on the default construction over `[10, 20, 30]`. -/
theorem C4_resample_translation_witness :
    (ResampledDataset.item_at ⟨⟨[10, 20, 30], true⟩, [2, 0]⟩ 1 =
      itemAtBase ([10, 20, 30] : List ℕ) (([2, 0] : List ℤ).getD 1 0)) ∧
    (∃ rd : ResampledDataset ℕ,
      ResampledDataset.construct [10, 20, 30] none = .ok rd ∧
      rd.samples = (List.range 3).map (fun (n : ℕ) => (n : ℤ)) ∧
      rd.length = 3 ∧
      ∀ i : ℤ, 0 ≤ i → i < 3 → rd.item_at i = itemAtBase [10, 20, 30] i) := by
  constructor
  · have h := C4_resample_translation_amended.1 ⟨⟨[10, 20, 30], true⟩, [2, 0]⟩ 1
      (by decide) (by decide)
    simpa using h
  · exact C4_resample_translation_amended.2 [10, 20, 30] (by decide)

/-- Claim C7: default partitioning over an inner of length 100 yields sizes
`{train: 64, val: 16, test: 20}` with `"train"` active immediately after
construction; in general the active partition after any successful
construction is `"train"` when present among the names, else the first
defined partition. -/
theorem C7_default_partitioning :
    ((PartitionedDataset.construct (List.range 100) none).map
      (fun pd => (pd.partitions, pd.active_partition)) =
      .ok ([("train", 64), ("val", 16), ("test", 20)], "train")) ∧
    (∀ {α : Type} (dataset : List α) (pOpt : Option (List (String × ℚ)))
        (pd : PartitionedDataset α),
      PartitionedDataset.construct dataset pOpt = .ok pd →
      pd.active_partition =
        (if "train" ∈ pd.partition_names then "train" else pd.partition_names.headI)) := by
  constructor
  · norm_num [PartitionedDataset.construct, convertPartitions, pyRound, pyInt,
      PartitionedDataset.set_active_partition, PartitionedDataset.partitions,
      PartitionedDataset.active_partition, cumsum, cumsumFrom]
    rfl
  · intro α dataset pOpt pd h
    exact (partitioned_construct_ok h).2

/-- Witness for C7: a spec without a `"train"` partition activates the first
defined partition, here `"a"`. -/
theorem C7_default_partitioning_witness :
    ∃ pd : PartitionedDataset ℕ,
      PartitionedDataset.construct [0, 1, 2, 3, 4] (some [("a", 2), ("b", 3)]) = .ok pd ∧
      pd.active_partition =
        (if "train" ∈ pd.partition_names then "train" else pd.partition_names.headI) := by
  have hc : PartitionedDataset.construct [0, 1, 2, 3, 4] (some [("a", 2), ("b", 3)]) =
      .ok ⟨⟨[0, 1, 2, 3, 4], true⟩, ["a", "b"], [2, 3], [2, 5], 0⟩ := by
    norm_num [PartitionedDataset.construct, convertPartitions, pyRound, pyInt,
      PartitionedDataset.set_active_partition, cumsum, cumsumFrom]
    intro hmem
    exact absurd hmem (by decide)
  exact ⟨_, hc, C7_default_partitioning.2 [0, 1, 2, 3, 4] (some [("a", 2), ("b", 3)]) _ hc⟩

/-- Claim C8: partition construction fails with an invariant violation (and
yields no view) whenever the spec defines fewer than two partitions, contains
a zero or negative value, contains a non-integer size after the
fractional-to-integer conversion, or the (converted) sizes do not sum exactly
to the inner length. -/
theorem C8_partition_validation {α : Type} (dataset : List α)
    (spec : List (String × ℚ))
    (hbad : spec.length < 2 ∨ (∃ p ∈ spec, p.2 ≤ 0) ∨
      (∃ p ∈ convertPartitions dataset.length spec, p.2.den ≠ 1) ∨
      ((convertPartitions dataset.length spec).map (fun p => p.2)).sum ≠
        (dataset.length : ℚ)) :
    PartitionedDataset.construct dataset (some spec) = .error .invariantViolation := by
  simp only [PartitionedDataset.construct, Option.getD_some]
  split_ifs with h1 h2 h3 h4 h5
  any_goals rfl
  all_goals
    exfalso
    rcases hbad with hb | ⟨p, hp, hple⟩ | ⟨p, hp, hpden⟩ | hsum
    · exact h1 hb
    · exact absurd (h2 p hp) (not_lt.mpr hple)
    · exact hpden (h3 p hp)
    · exact hsum h4

/-- Witness for C8: a one-partition spec is rejected. -/
theorem C8_partition_validation_witness :
    ([("a", (1 : ℚ))] : List (String × ℚ)).length < 2 ∧
    PartitionedDataset.construct ([0, 1] : List ℕ) (some [("a", 1)]) =
      .error .invariantViolation :=
  ⟨by decide, C8_partition_validation [0, 1] [("a", 1)] (Or.inl (by decide))⟩

/-- Claim C9: sample-list validation at construction and at wholesale
replacement: the nested input is flattened into one linear sequence; if any
flattened entry is negative or `>= inner.length()`, then BOTH constructing a
view from that input and replacing an existing view's samples with it fail
with an invariant violation; on success (either path) the stored samples are
exactly the flattened input and every entry lies in `[0, inner.length())`. -/
theorem C9_sample_validation {α : Type} (dataset : List α) (raw : List (List ℤ)) :
    ((∃ x ∈ raw.flatten, x < 0 ∨ (dataset.length : ℤ) ≤ x) →
      ResampledDataset.construct dataset (some raw) = .error .invariantViolation) ∧
    (∀ rd : ResampledDataset α,
      (∃ x ∈ raw.flatten, x < 0 ∨ (rd.wrapper.dataset.length : ℤ) ≤ x) →
      ResampledDataset.replace_samples rd raw = .error .invariantViolation) ∧
    (∀ rd : ResampledDataset α, ResampledDataset.construct dataset (some raw) = .ok rd →
      rd.samples = raw.flatten ∧ ∀ s ∈ rd.samples, 0 ≤ s ∧ s < (dataset.length : ℤ)) ∧
    (∀ rd rd2 : ResampledDataset α, ResampledDataset.replace_samples rd raw = .ok rd2 →
      rd2.samples = raw.flatten ∧
      ∀ s ∈ rd2.samples, 0 ≤ s ∧ s < (rd.wrapper.dataset.length : ℤ)) := by
  refine ⟨fun hx => ?_, fun rd hx => ?_, fun rd h => ?_, fun rd rd2 h => ?_⟩
  · simp only [ResampledDataset.construct, Option.getD_some]
    rw [set_samples_err hx]
    rfl
  · unfold ResampledDataset.replace_samples
    rw [set_samples_err hx]
    rfl
  · have hs := resampled_construct_ok h
    simpa using ⟨hs.2.1, hs.2.2⟩
  · unfold ResampledDataset.replace_samples at h
    cases hs : ResampledDataset.set_samples rd.wrapper.dataset raw with
    | error e => rw [hs] at h; cases h
    | ok s =>
      rw [hs] at h
      injection h with h
      subst h
      obtain ⟨hflat, hrange⟩ := set_samples_ok hs
      exact ⟨hflat, hrange⟩

/-- Witness for C9: over inner `[10, 20, 30]`, the nested input `[[0, 5]]`
contains the out-of-range entry 5 and is rejected by BOTH construction and
wholesale replacement of an existing view's samples, while `[[2], [0]]` is
accepted on both paths, stored flattened as `[2, 0]`, with every entry in
range. -/
theorem C9_sample_validation_witness :
    (ResampledDataset.construct ([10, 20, 30] : List ℕ) (some [[0, 5]]) =
      .error .invariantViolation) ∧
    (ResampledDataset.replace_samples
        (⟨⟨[10, 20, 30], true⟩, [0]⟩ : ResampledDataset ℕ) [[0, 5]] =
      .error .invariantViolation) ∧
    ((⟨⟨[10, 20, 30], true⟩, [2, 0]⟩ : ResampledDataset ℕ).samples =
        ([[2], [0]] : List (List ℤ)).flatten ∧
      ∀ s ∈ (⟨⟨[10, 20, 30], true⟩, [2, 0]⟩ : ResampledDataset ℕ).samples,
        0 ≤ s ∧ s < (([10, 20, 30] : List ℕ).length : ℤ)) ∧
    ((⟨⟨[10, 20, 30], true⟩, [2, 0]⟩ : ResampledDataset ℕ).samples =
        ([[2], [0]] : List (List ℤ)).flatten ∧
      ∀ s ∈ (⟨⟨[10, 20, 30], true⟩, [2, 0]⟩ : ResampledDataset ℕ).samples,
        0 ≤ s ∧ s <
          (((⟨⟨[10, 20, 30], true⟩, [0]⟩ :
            ResampledDataset ℕ).wrapper.dataset.length : ℕ) : ℤ)) := by
  refine ⟨?_, ?_, ?_, ?_⟩
  · exact (C9_sample_validation [10, 20, 30] [[0, 5]]).1 ⟨5, by decide, Or.inr (by decide)⟩
  · exact (C9_sample_validation [10, 20, 30] [[0, 5]]).2.1 _ ⟨5, by decide, Or.inr (by decide)⟩
  · exact (C9_sample_validation [10, 20, 30] [[2], [0]]).2.2.1 _ (by decide)
  · exact (C9_sample_validation [10, 20, 30] [[2], [0]]).2.2.2 _ _ (by decide)

/-- Claim C10: both derived views construct their underlying wrapper with the
lock enabled (no unlock flag is forwarded), so for every successfully
constructed Partition or Resample View, replacing the wrapped inner dataset
fails with an invariant violation: the inner sequence is fixed for the
lifetime of the view. -/
theorem C10_views_locked {α : Type} (dataset newDataset : List α)
    (pOpt : Option (List (String × ℚ))) (rawOpt : Option (List (List ℤ))) :
    (∀ pd : PartitionedDataset α, PartitionedDataset.construct dataset pOpt = .ok pd →
      pd.wrapper.lock_dataset = true ∧
      pd.wrapper.set_dataset newDataset = .error .invariantViolation) ∧
    (∀ rd : ResampledDataset α, ResampledDataset.construct dataset rawOpt = .ok rd →
      rd.wrapper.lock_dataset = true ∧
      rd.wrapper.set_dataset newDataset = .error .invariantViolation) := by
  constructor
  · intro pd h
    rw [(partitioned_construct_ok h).1]
    exact ⟨rfl, rfl⟩
  · intro rd h
    rw [(resampled_construct_ok h).1]
    exact ⟨rfl, rfl⟩

/-- Witness for C10: concrete two-partition and identity-resample views over
small datasets are locked and reject replacement of the inner dataset. -/
theorem C10_views_locked_witness :
    ((⟨⟨[0, 1, 2, 3], true⟩, ["train", "val"], [2, 2], [2, 4], 0⟩ :
        PartitionedDataset ℕ).wrapper.lock_dataset = true ∧
      (⟨⟨[0, 1, 2, 3], true⟩, ["train", "val"], [2, 2], [2, 4], 0⟩ :
        PartitionedDataset ℕ).wrapper.set_dataset [9] = .error .invariantViolation) ∧
    ((⟨⟨[10, 20, 30], true⟩, [0, 1, 2]⟩ : ResampledDataset ℕ).wrapper.lock_dataset = true ∧
      (⟨⟨[10, 20, 30], true⟩, [0, 1, 2]⟩ : ResampledDataset ℕ).wrapper.set_dataset [9] =
        .error .invariantViolation) := by
  constructor
  · exact (C10_views_locked [0, 1, 2, 3] [9] (some [("train", 2), ("val", 2)]) none).1 _
      (by norm_num [PartitionedDataset.construct, convertPartitions, pyRound, pyInt,
        PartitionedDataset.set_active_partition, cumsum, cumsumFrom])
  · exact (C10_views_locked [10, 20, 30] [9] none none).2 _ (by decide)

end Imbalanced
